import Mathlib

/-!
Verification of the llm-cache conversation-store facade.

The module under study maps a user identifier to three records held in an
external Redis-like key/value store: a message list, a model name, and an
aggregated metadata record.  We embed the data model and the operations of
src/index.ts shallowly: the store is an association list from string keys to
values, list/key/batch commands are pure state transformers, and the
asynchronous calls of the original are sequenced explicitly.  Clock reads
(Date.now) are passed in as an explicit `now` argument.
-/

set_option autoImplicit false

namespace LLMCache

/-- Role of a chat message: user, assistant or system (src/index.ts, Message.role). -/
inductive Role where
  | user
  | assistant
  | system
deriving DecidableEq, Repr

/-- Sentiment tag of a conversation (src/index.ts, ConversationMetadata.sentiment). -/
inductive Sentiment where
  | positive
  | neutral
  | negative
deriving DecidableEq, Repr

/-- Model of an opaque JSON-like value (the TypeScript type `unknown` inside the
free-form `Record<string, unknown>` maps). -/
inductive Uval where
  | str (s : String)
  | num (n : Int)
  | bool (b : Bool)
  | null
deriving DecidableEq, Repr

/-- Model of `Record<string, unknown>`: an association list of string keys to values.
JavaScript objects have unique keys; the lookup function below makes the list
order irrelevant beyond the first occurrence of a key. -/
abbrev RecordMap := List (String × Uval)

/-- Lookup of a key in a record map (property access on a JS object). -/
def rmGet (m : RecordMap) (k : String) : Option Uval :=
  (m.find? (fun p => p.1 == k)).map (fun p => p.2)

/-- JavaScript object spread of two records: all keys of both, values of the
second winning on conflicting keys (the semantics of the expression
`\x7b...cur, ...inc\x7d` applied to record maps). -/
def mergeRecord (cur inc : RecordMap) : RecordMap :=
  cur.filter (fun p => ((inc.find? (fun q => q.1 == p.1)).isNone : Bool)) ++ inc

/-- TokenUsage (src/index.ts): all three counters optional. -/
structure TokenUsage where
  promptTokens : Option Int := none
  completionTokens : Option Int := none
  totalTokens : Option Int := none
deriving DecidableEq, Repr

/-- ToolCall (src/index.ts). -/
structure ToolCall where
  id : String
  type : String
  name : Option String := none
  arguments : Option String := none
  result : Option Uval := none
deriving DecidableEq, Repr

/-- AttachmentMetadata (src/index.ts). -/
structure AttachmentMetadata where
  type : String
  url : Option String := none
  name : Option String := none
  mimeType : Option String := none
  sizeBytes : Option Int := none
  extra : Option RecordMap := none
deriving DecidableEq, Repr

/-- MessageMetadata (src/index.ts). -/
structure MessageMetadata where
  tokenUsage : Option TokenUsage := none
  toolCalls : Option (List ToolCall) := none
  attachments : Option (List AttachmentMetadata) := none
  latencyMs : Option Int := none
  language : Option String := none
  labels : Option (List String) := none
  extra : Option RecordMap := none
deriving DecidableEq, Repr

/-- Message (src/index.ts): a stored message always carries a timestamp. -/
structure Message where
  role : Role
  content : String
  timestamp : Int
  metadata : Option MessageMetadata := none
deriving DecidableEq, Repr

/-- MessageInput (src/index.ts): a message given to addMessage, whose
timestamp may be absent. -/
structure MessageInput where
  role : Role
  content : String
  timestamp : Option Int := none
  metadata : Option MessageMetadata := none
deriving DecidableEq, Repr

/-- ConversationMetadata (src/index.ts): every field optional. -/
structure ConversationMetadata where
  summary : Option String := none
  totalTurns : Option Int := none
  lastInteractionAt : Option Int := none
  tokenUsage : Option TokenUsage := none
  sentiment : Option Sentiment := none
  goal : Option String := none
  userPreferences : Option RecordMap := none
  toolState : Option RecordMap := none
  extra : Option RecordMap := none
deriving DecidableEq, Repr

/-- mergeTokenUsage (src/index.ts lines 165-177): returns undefined when both
sides are absent, otherwise each counter is the incoming one when present,
else the current one. -/
def mergeTokenUsage (current incoming : Option TokenUsage) : Option TokenUsage :=
  match current, incoming with
  | none, none => none
  | _, _ =>
    some
      { promptTokens := (incoming.bind TokenUsage.promptTokens) <|> (current.bind TokenUsage.promptTokens)
        completionTokens := (incoming.bind TokenUsage.completionTokens) <|> (current.bind TokenUsage.completionTokens)
        totalTokens := (incoming.bind TokenUsage.totalTokens) <|> (current.bind TokenUsage.totalTokens) }

/-- mergeMetadata (src/index.ts lines 179-202): object spread of current then
incoming, with tokenUsage merged by mergeTokenUsage and the three free-form
maps shallow-merged by object spread (an absent map spreads as the empty
object). -/
def mergeMetadata (current : Option ConversationMetadata) (incoming : ConversationMetadata) :
    ConversationMetadata :=
  { summary := incoming.summary <|> (current.bind ConversationMetadata.summary)
    totalTurns := incoming.totalTurns <|> (current.bind ConversationMetadata.totalTurns)
    lastInteractionAt := incoming.lastInteractionAt <|> (current.bind ConversationMetadata.lastInteractionAt)
    tokenUsage := mergeTokenUsage (current.bind ConversationMetadata.tokenUsage) incoming.tokenUsage
    sentiment := incoming.sentiment <|> (current.bind ConversationMetadata.sentiment)
    goal := incoming.goal <|> (current.bind ConversationMetadata.goal)
    userPreferences :=
      some (mergeRecord ((current.bind ConversationMetadata.userPreferences).getD [])
        (incoming.userPreferences.getD []))
    toolState :=
      some (mergeRecord ((current.bind ConversationMetadata.toolState).getD [])
        (incoming.toolState.getD []))
    extra :=
      some (mergeRecord ((current.bind ConversationMetadata.extra).getD [])
        (incoming.extra.getD [])) }

/-! ### The external store

The sdk-ioredis-fastify client exposes scalar get/set, list push/range, key
expiry and a multi-key batched delete.  We model the remote store as an
association list from keys to values (a sum of the value shapes this module
ever writes) plus a map recording, for each key, the last TTL applied to it
and the time at which it was applied. -/

/-- A value held at a store key: a message list, a plain string, or a
metadata record. -/
inductive RVal where
  | vlist (msgs : List Message)
  | vstr (s : String)
  | vmeta (m : ConversationMetadata)
deriving DecidableEq, Repr

/-- The remote store: key/value data and per-key TTL bookkeeping.  A TTL entry
is the pair (seconds, time at which expire was issued). -/
structure Store where
  data : List (String × RVal)
  ttls : List (String × (Int × Int))
deriving DecidableEq, Repr

/-- The empty store. -/
def Store.empty : Store := { data := [], ttls := [] }

/-- Read of a key (keys.get): the most recent write wins, absence is `none`. -/
def kvGet (s : Store) (k : String) : Option RVal :=
  (s.data.find? (fun p => p.1 == k)).map (fun p => p.2)

/-- Write of a key (keys.set): the new binding shadows any previous one. -/
def kvSet (s : Store) (k : String) (v : RVal) : Store :=
  { s with data := (k, v) :: s.data }

/-- Deletion of a key (one DEL of the batch flow): removes the binding and its
TTL bookkeeping. -/
def kvDel (s : Store) (k : String) : Store :=
  { data := s.data.filter (fun p => !(p.1 == k))
    ttls := s.ttls.filter (fun p => !(p.1 == k)) }

/-- TTL bookkeeping read: the last (seconds, appliedAt) recorded for a key. -/
def ttlGet (s : Store) (k : String) : Option (Int × Int) :=
  (s.ttls.find? (fun p => p.1 == k)).map (fun p => p.2)

/-- keys.expire: records the TTL for an existing key; a no-op on a missing key. -/
def expire (s : Store) (k : String) (seconds now : Int) : Store :=
  if (kvGet s k).isSome then { s with ttls := (k, (seconds, now)) :: s.ttls } else s

/-- The list stored at a key as read by list commands: a missing key reads as
the empty list. -/
def getList (s : Store) (k : String) : List Message :=
  match kvGet s k with
  | some (RVal.vlist l) => l
  | _ => []

/-- lists.push with default direction right (RPUSH): appends to the tail of the
list at the key, creating it when absent. -/
def listPush (s : Store) (k : String) (m : Message) : Store :=
  kvSet s k (RVal.vlist (getList s k ++ [m]))

/-- lists.getRange (Redis LRANGE): negative indices count from the tail,
the stop index is inclusive and clamped to the last element. -/
def lrange (l : List Message) (start stop : Int) : List Message :=
  let n : Int := l.length
  let s : Int := if start < 0 then max (n + start) 0 else start
  let e : Int := min (if stop < 0 then n + stop else stop) (n - 1)
  if s ≤ e then (l.drop s.toNat).take (e - s + 1).toNat else []

/-! ### The facade operations -/

/-- The TTL configuration held by the cache instance (constructor fields
conversationTTLSeconds and modelTTLSeconds). -/
structure CacheTTLConfig where
  conversationTTLSeconds : Option Int := none
  modelTTLSeconds : Option Int := none
deriving DecidableEq, Repr

/-- getMessagesKey (src/index.ts line 147). -/
def getMessagesKey (userId : String) : String :=
  "llm-cache:" ++ userId ++ ":messages"

/-- getModelKey (src/index.ts line 151). -/
def getModelKey (userId : String) : String :=
  "llm-cache:" ++ userId ++ ":model"

/-- getMetadataKey (src/index.ts line 155). -/
def getMetadataKey (userId : String) : String :=
  "llm-cache:" ++ userId ++ ":metadata"

/-- The three record kinds a user owns in the store. -/
inductive RecordKind where
  | messages
  | model
  | metadata
deriving DecidableEq, Repr

/-- The full key derivation: user identifier and record kind to storage key. -/
def deriveKey (userId : String) : RecordKind → String
  | RecordKind.messages => getMessagesKey userId
  | RecordKind.model => getModelKey userId
  | RecordKind.metadata => getMetadataKey userId

/-- applyTTL (src/index.ts lines 159-163): issues expire only when a TTL is
configured and positive (the guard `ttlSeconds && ttlSeconds > 0`). -/
def applyTTL (s : Store) (k : String) (ttlSeconds : Option Int) (now : Int) : Store :=
  match ttlSeconds with
  | some t => if 0 < t then expire s k t now else s
  | none => s

/-- Normalization done by addMessage: default the timestamp to the current
time when absent. -/
def normalizeMessage (m : MessageInput) (now : Int) : Message :=
  { role := m.role
    content := m.content
    timestamp := m.timestamp.getD now
    metadata := m.metadata }

/-- addMessage (src/index.ts lines 211-221): push the normalized message to the
tail of the message list, then apply the conversation TTL. -/
def addMessage (cfg : CacheTTLConfig) (s : Store) (userId : String) (m : MessageInput)
    (now : Int) : Store :=
  let key := getMessagesKey userId
  let s1 := listPush s key (normalizeMessage m now)
  applyTTL s1 key cfg.conversationTTLSeconds now

/-- A sequence of addMessage calls, each with its own clock reading. -/
def addMessages (cfg : CacheTTLConfig) (s : Store) (userId : String)
    (ms : List (MessageInput × Int)) : Store :=
  ms.foldl (fun st p => addMessage cfg st userId p.1 p.2) s

/-- setModel (src/index.ts lines 228-232): overwrite the model key, then apply
the model TTL, falling back to the conversation TTL. -/
def setModel (cfg : CacheTTLConfig) (s : Store) (userId : String) (modelName : String)
    (now : Int) : Store :=
  let key := getModelKey userId
  let s1 := kvSet s key (RVal.vstr modelName)
  applyTTL s1 key (cfg.modelTTLSeconds <|> cfg.conversationTTLSeconds) now

/-- getModel (src/index.ts lines 239-242): read-through; an unset key reads as
absent, never as an error. -/
def getModel (s : Store) (userId : String) : Option String :=
  match kvGet s (getModelKey userId) with
  | some (RVal.vstr v) => some v
  | _ => none

/-- getConversationMetadata (src/index.ts lines 265-268): read-through. -/
def getConversationMetadata (s : Store) (userId : String) : Option ConversationMetadata :=
  match kvGet s (getMetadataKey userId) with
  | some (RVal.vmeta m) => some m
  | _ => none

/-- upsertConversationMetadata (src/index.ts lines 248-260): read the current
record, merge, write the merged record back, apply the conversation TTL, and
return the merged record. -/
def upsertConversationMetadata (cfg : CacheTTLConfig) (s : Store) (userId : String)
    (incoming : ConversationMetadata) (now : Int) : Store × ConversationMetadata :=
  let key := getMetadataKey userId
  let current := getConversationMetadata s userId
  let merged := mergeMetadata current incoming
  let s1 := kvSet s key (RVal.vmeta merged)
  let s2 := applyTTL s1 key cfg.conversationTTLSeconds now
  (s2, merged)

/-- getConversationWindow (src/index.ts lines 277-294): range read with start
0 and stop -1, except that a present positive lastN sets start to -lastN. -/
def getConversationWindow (s : Store) (userId : String) (lastN : Option Int) : List Message :=
  let key := getMessagesKey userId
  let start : Int :=
    match lastN with
    | some n => if 0 < n then -n else 0
    | none => 0
  lrange (getList s key) start (-1)

/-- clearHistory (src/index.ts lines 300-311): one batched flow deleting the
message, model and metadata keys of the user. -/
def clearHistory (s : Store) (userId : String) : Store :=
  kvDel (kvDel (kvDel s (getMessagesKey userId)) (getModelKey userId)) (getMetadataKey userId)

/-! ### The singleton constructor -/

/-- LLMCacheOptions (src/index.ts lines 64-78). -/
structure LLMCacheOptions where
  apiVersion : Option String := none
  conversationTTLSeconds : Option Int := none
  modelTTLSeconds : Option Int := none
deriving DecidableEq, Repr

/-- LLMCacheConfig (src/index.ts lines 80-82): options plus a baseURL. -/
structure LLMCacheConfig where
  baseURL : String
  apiVersion : Option String := none
  conversationTTLSeconds : Option Int := none
  modelTTLSeconds : Option Int := none
deriving DecidableEq, Repr

/-- The state held by a constructed LLMCache instance (constructor,
src/index.ts lines 112-119): the client configuration and the two TTLs. -/
structure CacheInstance where
  baseURL : String
  apiVersion : String
  conversationTTLSeconds : Option Int := none
  modelTTLSeconds : Option Int := none
deriving DecidableEq, Repr

/-- The argument shapes accepted by getInstance: a baseURL string with an
options object (defaulted to the empty object), a config object, or no
argument at all (the first parameter is optional). -/
inductive GetInstanceArg where
  | byURL (baseURL : String) (options : LLMCacheOptions)
  | byConfig (config : Option LLMCacheConfig)
deriving DecidableEq, Repr

/-- The config computed inside getInstance (src/index.ts lines 134-136): a
string first argument is wrapped with the options spread in; otherwise the
first argument is the config itself. -/
def resolveConfig : GetInstanceArg → Option LLMCacheConfig
  | GetInstanceArg.byURL url opts =>
    some
      { baseURL := url
        apiVersion := opts.apiVersion
        conversationTTLSeconds := opts.conversationTTLSeconds
        modelTTLSeconds := opts.modelTTLSeconds }
  | GetInstanceArg.byConfig c => c

/-- The private constructor (src/index.ts lines 112-119): apiVersion defaults
to v1. -/
def mkInstance (cfg : LLMCacheConfig) : CacheInstance :=
  { baseURL := cfg.baseURL
    apiVersion := cfg.apiVersion.getD "v1"
    conversationTTLSeconds := cfg.conversationTTLSeconds
    modelTTLSeconds := cfg.modelTTLSeconds }

/-- getInstance (src/index.ts lines 129-145) as a transformer of the static
singleton field: returns the new field value and either the instance or the
configuration error.  The guard `!config?.baseURL` fails for an absent config
and for an empty baseURL string (both falsy). -/
def getInstance (st : Option CacheInstance) (arg : GetInstanceArg) :
    Option CacheInstance × Except String CacheInstance :=
  match st with
  | some inst => (some inst, Except.ok inst)
  | none =>
    match resolveConfig arg with
    | none => (none, Except.error "A baseURL e necessaria na primeira inicializacao do LLMCache.")
    | some cfg =>
      if cfg.baseURL = "" then
        (none, Except.error "A baseURL e necessaria na primeira inicializacao do LLMCache.")
      else
        let inst := mkInstance cfg
        (some inst, Except.ok inst)

/-! ### Basic lemmas about the store primitives -/

lemma kvGet_set_self (s : Store) (k : String) (v : RVal) :
    kvGet (kvSet s k v) k = some v := by
  simp [kvGet, kvSet, List.find?_cons]

lemma kvGet_set_other (s : Store) (k k' : String) (v : RVal) (h : k' ≠ k) :
    kvGet (kvSet s k v) k' = kvGet s k' := by
  have hk : (k == k') = false := by
    simp only [beq_eq_false_iff_ne, ne_eq]
    exact fun hh => h hh.symm
  simp [kvGet, kvSet, List.find?_cons, hk]

lemma find?_filter_ne {α : Type} (l : List (String × α)) (k k' : String) (h : k' ≠ k) :
    (l.filter (fun p => !(p.1 == k))).find? (fun p => p.1 == k')
      = l.find? (fun p => p.1 == k') := by
  induction l with
  | nil => rfl
  | cons p l ih =>
    rw [List.filter_cons]
    by_cases hp : p.1 = k
    · have h2 : (p.1 == k') = false := by
        simp only [beq_eq_false_iff_ne, ne_eq, hp]
        exact fun hh => h hh.symm
      rw [hp] at h2
      simp [hp, ih, List.find?_cons, h2]
    · have h1 : (!(p.1 == k)) = true := by simp [hp]
      simp only [h1, List.find?_cons, if_pos rfl]
      by_cases h2 : p.1 = k'
      · simp [h2]
      · have h3 : (p.1 == k') = false := by simp [h2]
        simp [h3, ih]

lemma find?_filter_self {α : Type} (l : List (String × α)) (k : String) :
    (l.filter (fun p => !(p.1 == k))).find? (fun p => p.1 == k) = none := by
  rw [List.find?_eq_none]
  intro x hx
  have hmem := (List.mem_filter.mp hx).2
  simp only [Bool.not_eq_true', beq_eq_false_iff_ne, ne_eq] at hmem
  simp [hmem]

lemma kvGet_del_self (s : Store) (k : String) : kvGet (kvDel s k) k = none := by
  simp [kvGet, kvDel, find?_filter_self]

lemma kvGet_del_other (s : Store) (k k' : String) (h : k' ≠ k) :
    kvGet (kvDel s k) k' = kvGet s k' := by
  simp [kvGet, kvDel, find?_filter_ne _ _ _ h]

lemma ttlGet_del_other (s : Store) (k k' : String) (h : k' ≠ k) :
    ttlGet (kvDel s k) k' = ttlGet s k' := by
  simp [ttlGet, kvDel, find?_filter_ne _ _ _ h]

lemma applyTTL_data (s : Store) (k : String) (t : Option Int) (now : Int) :
    (applyTTL s k t now).data = s.data := by
  cases t with
  | none => rfl
  | some t =>
    simp only [applyTTL]
    split
    · simp only [expire]
      split <;> rfl
    · rfl

lemma kvGet_applyTTL (s : Store) (k : String) (t : Option Int) (now : Int) (k' : String) :
    kvGet (applyTTL s k t now) k' = kvGet s k' := by
  unfold kvGet
  rw [applyTTL_data]

lemma getList_applyTTL (s : Store) (k : String) (t : Option Int) (now : Int) (k' : String) :
    getList (applyTTL s k t now) k' = getList s k' := by
  unfold getList
  rw [kvGet_applyTTL]

/-! ### Lemmas about lrange -/

lemma lrange_all (l : List Message) : lrange l 0 (-1) = l := by
  unfold lrange
  rcases l with _ | ⟨m, l0⟩
  · norm_num
  · have hlen : (0:Int) ≤ ((m :: l0).length : Int) + -1 := by
      simp only [List.length_cons]
      push_cast
      omega
    have hmin : min (((m :: l0).length : Int) + -1) (((m :: l0).length : Int) - 1)
        = ((m :: l0).length : Int) + -1 := by omega
    have htn : (((m :: l0).length : Int) + -1 - 0 + 1).toNat = (m :: l0).length := by omega
    simp only [show ¬((0:Int) < 0) by omega, if_false, show ((-1:Int) < 0) by omega, if_true,
      hmin, if_pos hlen, htn]
    simp

lemma lrange_last (l : List Message) (k : Int) (hk : 0 < k) :
    lrange l (-k) (-1) = l.drop (l.length - k.toNat) := by
  unfold lrange
  have hneg : (-k : Int) < 0 := by omega
  rcases l with _ | ⟨m, l0⟩
  · simp only [List.length_nil, Nat.cast_zero, List.drop_nil]
    norm_num
  · set L := (m :: l0).length with hL
    have hL1 : 1 ≤ L := by simp [hL]
    have hs : (if (-k:Int) < 0 then max ((L:Int) + -k) 0 else -k) = max ((L:Int) + -k) 0 := by
      simp [hneg]
    have hmin : min ((L:Int) + -1) ((L:Int) - 1) = (L:Int) - 1 := by omega
    have hcond : max ((L:Int) + -k) 0 ≤ (L:Int) - 1 := by omega
    have hsn : (max ((L:Int) + -k) 0).toNat = L - k.toNat := by omega
    have hen : ((L:Int) - 1 - max ((L:Int) + -k) 0 + 1).toNat = min k.toNat L := by omega
    simp only [← hL, hs, show ((-1:Int) < 0) by omega, if_true, hmin, if_pos hcond, hsn, hen]
    apply List.take_of_length_le
    rw [List.length_drop]
    omega

/-! ### Lemmas about record-map merge -/

lemma rmGet_nil (k : String) : rmGet [] k = none := rfl

lemma rmGet_cons (p : String × Uval) (l : RecordMap) (k : String) :
    rmGet (p :: l) k = if p.1 == k then some p.2 else rmGet l k := by
  simp only [rmGet, List.find?_cons]
  split <;> simp_all

lemma rmGet_append (a b : RecordMap) (k : String) :
    rmGet (a ++ b) k = (rmGet a k <|> rmGet b k) := by
  induction a with
  | nil => simp [rmGet_nil]
  | cons p a ih =>
    rw [List.cons_append, rmGet_cons, rmGet_cons]
    split <;> simp [ih]

lemma rmGet_filter_keep (a : RecordMap) (pred : String × Uval → Bool) (k : String)
    (h : ∀ p : String × Uval, p.1 = k → pred p = true) :
    rmGet (a.filter pred) k = rmGet a k := by
  induction a with
  | nil => rfl
  | cons p a ih =>
    rw [List.filter_cons]
    by_cases hk : p.1 = k
    · rw [if_pos (h p hk), rmGet_cons, rmGet_cons]
      split <;> simp [ih]
    · have hbk : (p.1 == k) = false := by simp [hk]
      by_cases hp : pred p = true
      · rw [if_pos hp, rmGet_cons, hbk, if_neg (by simp), ih, rmGet_cons, hbk, if_neg (by simp)]
      · rw [if_neg hp, ih, rmGet_cons, hbk, if_neg (by simp)]

lemma rmGet_filter_none (a : RecordMap) (pred : String × Uval → Bool) (k : String)
    (h : ∀ p : String × Uval, p.1 = k → pred p = false) :
    rmGet (a.filter pred) k = none := by
  induction a with
  | nil => rfl
  | cons p a ih =>
    rw [List.filter_cons]
    by_cases hk : p.1 = k
    · rw [if_neg (by simp [h p hk]), ih]
    · have hbk : (p.1 == k) = false := by simp [hk]
      by_cases hp : pred p = true
      · rw [if_pos hp, rmGet_cons, hbk, if_neg (by simp), ih]
      · rw [if_neg hp, ih]

lemma rmGet_mergeRecord (a b : RecordMap) (k : String) :
    rmGet (mergeRecord a b) k = (rmGet b k <|> rmGet a k) := by
  unfold mergeRecord
  rw [rmGet_append]
  cases hb : b.find? (fun q => q.1 == k) with
  | none =>
    have hbk : rmGet b k = none := by simp [rmGet, hb]
    rw [rmGet_filter_keep]
    · rw [hbk]
      cases rmGet a k <;> simp
    · intro p hp
      simp only [hp, hb, Option.isNone_none]
  | some q =>
    have hbk : rmGet b k = some q.2 := by simp [rmGet, hb]
    rw [rmGet_filter_none]
    · rw [hbk]
      simp
    · intro p hp
      simp only [hp, hb, Option.isNone_some]

/-! ### Lemmas about the derived keys -/

lemma data_append (a b : String) : (a ++ b).data = a.data ++ b.data := by
  cases a
  cases b
  rfl

lemma string_eq_of_data {a b : String} (h : a.data = b.data) : a = b := by
  cases a
  cases b
  exact congrArg String.mk (by simpa using h)

lemma append_ne_of_rev {c d : Char} {s' t' : List Char} {a b s t : List Char}
    (hs : s.reverse = c :: s') (ht : t.reverse = d :: t') (hcd : c ≠ d) :
    a ++ s ≠ b ++ t := by
  intro h
  have h' := congrArg List.reverse h
  rw [List.reverse_append, List.reverse_append, hs, ht] at h'
  simp only [List.cons_append, List.cons.injEq] at h'
  exact hcd h'.1

lemma rev_messages_suffix : (":messages".data).reverse = 's' :: "egassem:".data := by decide

lemma rev_model_suffix : (":model".data).reverse = 'l' :: "edom:".data := by decide

lemma rev_metadata_suffix : (":metadata".data).reverse = 'a' :: "tadatem:".data := by decide

lemma deriveKey_inj_aux (u1 u2 : String) (k1 k2 : RecordKind)
    (h : deriveKey u1 k1 = deriveKey u2 k2) : u1 = u2 ∧ k1 = k2 := by
  have hd := congrArg String.data h
  cases k1 <;> cases k2 <;>
    simp only [deriveKey, getMessagesKey, getModelKey, getMetadataKey, data_append] at hd <;>
    first
    | exact absurd hd (append_ne_of_rev rev_messages_suffix rev_model_suffix (by decide))
    | exact absurd hd (append_ne_of_rev rev_messages_suffix rev_metadata_suffix (by decide))
    | exact absurd hd (append_ne_of_rev rev_model_suffix rev_messages_suffix (by decide))
    | exact absurd hd (append_ne_of_rev rev_model_suffix rev_metadata_suffix (by decide))
    | exact absurd hd (append_ne_of_rev rev_metadata_suffix rev_messages_suffix (by decide))
    | exact absurd hd (append_ne_of_rev rev_metadata_suffix rev_model_suffix (by decide))
    | exact ⟨string_eq_of_data (List.append_cancel_left (List.append_cancel_right hd)), rfl⟩

lemma messagesKey_ne_modelKey (u1 u2 : String) : getMessagesKey u1 ≠ getModelKey u2 := by
  intro h
  have := (deriveKey_inj_aux u1 u2 RecordKind.messages RecordKind.model h).2
  exact absurd this (by decide)

lemma messagesKey_ne_metadataKey (u1 u2 : String) : getMessagesKey u1 ≠ getMetadataKey u2 := by
  intro h
  have := (deriveKey_inj_aux u1 u2 RecordKind.messages RecordKind.metadata h).2
  exact absurd this (by decide)

lemma modelKey_ne_metadataKey (u1 u2 : String) : getModelKey u1 ≠ getMetadataKey u2 := by
  intro h
  have := (deriveKey_inj_aux u1 u2 RecordKind.model RecordKind.metadata h).2
  exact absurd this (by decide)

/-! ### Lemmas about the facade operations -/

lemma getList_push (s : Store) (k : String) (m : Message) :
    getList (listPush s k m) k = getList s k ++ [m] := by
  unfold listPush getList
  rw [kvGet_set_self]

lemma getList_addMessage (cfg : CacheTTLConfig) (s : Store) (u : String) (m : MessageInput)
    (now : Int) :
    getList (addMessage cfg s u m now) (getMessagesKey u)
      = getList s (getMessagesKey u) ++ [normalizeMessage m now] := by
  unfold addMessage
  rw [getList_applyTTL, getList_push]

lemma addMessages_getList (cfg : CacheTTLConfig) (u : String) (ms : List (MessageInput × Int)) :
    ∀ s : Store, getList (addMessages cfg s u ms) (getMessagesKey u)
      = getList s (getMessagesKey u) ++ ms.map (fun p => normalizeMessage p.1 p.2) := by
  induction ms with
  | nil =>
    intro s
    simp [addMessages]
  | cons p ms ih =>
    intro s
    have hstep := ih (addMessage cfg s u p.1 p.2)
    simp only [addMessages, List.foldl_cons] at hstep ⊢
    rw [hstep, getList_addMessage, List.map_cons, List.append_assoc, List.singleton_append]

lemma ttlGet_addMessage (cfg : CacheTTLConfig) (s : Store) (u : String) (m : MessageInput)
    (now t : Int) (h : cfg.conversationTTLSeconds = some t) (ht : 0 < t) :
    ttlGet (addMessage cfg s u m now) (getMessagesKey u) = some (t, now) := by
  have hsome : (kvGet (listPush s (getMessagesKey u) (normalizeMessage m now))
      (getMessagesKey u)).isSome = true := by
    unfold listPush
    rw [kvGet_set_self]
    rfl
  simp only [addMessage, applyTTL, h, ht, if_true, expire, hsome]
  unfold ttlGet
  simp [List.find?_cons]

lemma upsert_readback (cfg : CacheTTLConfig) (s : Store) (u : String)
    (incoming : ConversationMetadata) (now : Int) :
    getConversationMetadata (upsertConversationMetadata cfg s u incoming now).1 u
      = some (upsertConversationMetadata cfg s u incoming now).2 := by
  unfold upsertConversationMetadata getConversationMetadata
  rw [kvGet_applyTTL, kvGet_set_self]

lemma mergeTokenUsage_prompt (c i : Option TokenUsage) :
    (mergeTokenUsage c i).bind TokenUsage.promptTokens
      = ((i.bind TokenUsage.promptTokens) <|> (c.bind TokenUsage.promptTokens)) := by
  unfold mergeTokenUsage
  cases c <;> cases i <;> simp

lemma mergeTokenUsage_completion (c i : Option TokenUsage) :
    (mergeTokenUsage c i).bind TokenUsage.completionTokens
      = ((i.bind TokenUsage.completionTokens) <|> (c.bind TokenUsage.completionTokens)) := by
  unfold mergeTokenUsage
  cases c <;> cases i <;> simp

lemma mergeTokenUsage_total (c i : Option TokenUsage) :
    (mergeTokenUsage c i).bind TokenUsage.totalTokens
      = ((i.bind TokenUsage.totalTokens) <|> (c.bind TokenUsage.totalTokens)) := by
  unfold mergeTokenUsage
  cases c <;> cases i <;> simp

lemma mergeMetadata_scalar_idem (cur : Option ConversationMetadata) (inc : ConversationMetadata) :
    (mergeMetadata (some (mergeMetadata cur inc)) inc).summary = (mergeMetadata cur inc).summary
    ∧ (mergeMetadata (some (mergeMetadata cur inc)) inc).totalTurns
        = (mergeMetadata cur inc).totalTurns
    ∧ (mergeMetadata (some (mergeMetadata cur inc)) inc).lastInteractionAt
        = (mergeMetadata cur inc).lastInteractionAt
    ∧ (mergeMetadata (some (mergeMetadata cur inc)) inc).sentiment
        = (mergeMetadata cur inc).sentiment
    ∧ (mergeMetadata (some (mergeMetadata cur inc)) inc).goal = (mergeMetadata cur inc).goal := by
  refine ⟨?_, ?_, ?_, ?_, ?_⟩ <;>
    simp only [mergeMetadata, Option.some_bind] <;>
    first
    | cases inc.summary <;> simp
    | cases inc.totalTurns <;> simp
    | cases inc.lastInteractionAt <;> simp
    | cases inc.sentiment <;> simp
    | cases inc.goal <;> simp

/-! ### The claims -/

/-- C1: getConversationWindow returns the full history in append order when lastN
is absent or non-positive; for a positive lastN it returns exactly the last
lastN stored messages in append order (the whole history when lastN exceeds its
length, never an error), by requesting the list range from the negative offset
-lastN through stop index -1. -/
theorem getConversationWindow_spec (s : Store) (u : String) (lastN : Option Int) :
    getConversationWindow s u lastN =
      (match lastN with
       | none => getList s (getMessagesKey u)
       | some n =>
         if 0 < n then
           (getList s (getMessagesKey u)).drop ((getList s (getMessagesKey u)).length - n.toNat)
         else getList s (getMessagesKey u)) := by
  cases lastN with
  | none => exact lrange_all _
  | some n =>
    show lrange (getList s (getMessagesKey u)) (if 0 < n then -n else 0) (-1)
      = if 0 < n then
          (getList s (getMessagesKey u)).drop ((getList s (getMessagesKey u)).length - n.toNat)
        else getList s (getMessagesKey u)
    by_cases hn : 0 < n
    · rw [if_pos hn, if_pos hn]
      exact lrange_last _ n hn
    · rw [if_neg hn, if_neg hn]
      exact lrange_all _

/-- C2: upsertConversationMetadata reads the current record, merges the partial
update (nested maps tokenUsage, userPreferences, toolState and extra
shallow-merged key-by-key with incoming values winning; scalar fields
overwritten only when present in the update), writes the merged record back
under the metadata key, and returns exactly the record it wrote. -/
theorem upsertConversationMetadata_spec (cfg : CacheTTLConfig) (s : Store) (u : String)
    (incoming : ConversationMetadata) (now : Int) :
    (upsertConversationMetadata cfg s u incoming now).2
        = mergeMetadata (getConversationMetadata s u) incoming
    ∧ getConversationMetadata (upsertConversationMetadata cfg s u incoming now).1 u
        = some (upsertConversationMetadata cfg s u incoming now).2
    ∧ (∀ (cur : Option ConversationMetadata) (inc : ConversationMetadata),
        (mergeMetadata cur inc).summary = (inc.summary <|> cur.bind ConversationMetadata.summary)
        ∧ (mergeMetadata cur inc).totalTurns
            = (inc.totalTurns <|> cur.bind ConversationMetadata.totalTurns)
        ∧ (mergeMetadata cur inc).lastInteractionAt
            = (inc.lastInteractionAt <|> cur.bind ConversationMetadata.lastInteractionAt)
        ∧ (mergeMetadata cur inc).sentiment
            = (inc.sentiment <|> cur.bind ConversationMetadata.sentiment)
        ∧ (mergeMetadata cur inc).goal = (inc.goal <|> cur.bind ConversationMetadata.goal)
        ∧ (mergeMetadata cur inc).tokenUsage.bind TokenUsage.promptTokens
            = ((inc.tokenUsage.bind TokenUsage.promptTokens)
                <|> ((cur.bind ConversationMetadata.tokenUsage).bind TokenUsage.promptTokens))
        ∧ (mergeMetadata cur inc).tokenUsage.bind TokenUsage.completionTokens
            = ((inc.tokenUsage.bind TokenUsage.completionTokens)
                <|> ((cur.bind ConversationMetadata.tokenUsage).bind TokenUsage.completionTokens))
        ∧ (mergeMetadata cur inc).tokenUsage.bind TokenUsage.totalTokens
            = ((inc.tokenUsage.bind TokenUsage.totalTokens)
                <|> ((cur.bind ConversationMetadata.tokenUsage).bind TokenUsage.totalTokens))
        ∧ (∀ k : String, rmGet ((mergeMetadata cur inc).userPreferences.getD []) k
            = (rmGet (inc.userPreferences.getD []) k
                <|> rmGet ((cur.bind ConversationMetadata.userPreferences).getD []) k))
        ∧ (∀ k : String, rmGet ((mergeMetadata cur inc).toolState.getD []) k
            = (rmGet (inc.toolState.getD []) k
                <|> rmGet ((cur.bind ConversationMetadata.toolState).getD []) k))
        ∧ (∀ k : String, rmGet ((mergeMetadata cur inc).extra.getD []) k
            = (rmGet (inc.extra.getD []) k
                <|> rmGet ((cur.bind ConversationMetadata.extra).getD []) k))) := by
  refine ⟨rfl, upsert_readback cfg s u incoming now, ?_⟩
  intro cur inc
  refine ⟨rfl, rfl, rfl, rfl, rfl, mergeTokenUsage_prompt _ _, mergeTokenUsage_completion _ _,
    mergeTokenUsage_total _ _, ?_, ?_, ?_⟩
  · intro k
    exact rmGet_mergeRecord _ _ k
  · intro k
    exact rmGet_mergeRecord _ _ k
  · intro k
    exact rmGet_mergeRecord _ _ k

/-- C3: applying the same partial metadata update twice in succession yields the
same returned record and the same stored record as applying it once, for the
scalar fields summary, totalTurns, lastInteractionAt, sentiment and goal. -/
theorem upsertConversationMetadata_idempotent (cfg : CacheTTLConfig) (s : Store) (u : String)
    (incoming : ConversationMetadata) (now now' : Int) :
    ((upsertConversationMetadata cfg (upsertConversationMetadata cfg s u incoming now).1 u
        incoming now').2.summary = (upsertConversationMetadata cfg s u incoming now).2.summary
      ∧ (upsertConversationMetadata cfg (upsertConversationMetadata cfg s u incoming now).1 u
          incoming now').2.totalTurns = (upsertConversationMetadata cfg s u incoming now).2.totalTurns
      ∧ (upsertConversationMetadata cfg (upsertConversationMetadata cfg s u incoming now).1 u
          incoming now').2.lastInteractionAt
            = (upsertConversationMetadata cfg s u incoming now).2.lastInteractionAt
      ∧ (upsertConversationMetadata cfg (upsertConversationMetadata cfg s u incoming now).1 u
          incoming now').2.sentiment = (upsertConversationMetadata cfg s u incoming now).2.sentiment
      ∧ (upsertConversationMetadata cfg (upsertConversationMetadata cfg s u incoming now).1 u
          incoming now').2.goal = (upsertConversationMetadata cfg s u incoming now).2.goal)
    ∧ ((getConversationMetadata (upsertConversationMetadata cfg
            (upsertConversationMetadata cfg s u incoming now).1 u incoming now').1 u).bind
          ConversationMetadata.summary
        = (getConversationMetadata (upsertConversationMetadata cfg s u incoming now).1 u).bind
            ConversationMetadata.summary
      ∧ (getConversationMetadata (upsertConversationMetadata cfg
            (upsertConversationMetadata cfg s u incoming now).1 u incoming now').1 u).bind
          ConversationMetadata.totalTurns
        = (getConversationMetadata (upsertConversationMetadata cfg s u incoming now).1 u).bind
            ConversationMetadata.totalTurns
      ∧ (getConversationMetadata (upsertConversationMetadata cfg
            (upsertConversationMetadata cfg s u incoming now).1 u incoming now').1 u).bind
          ConversationMetadata.lastInteractionAt
        = (getConversationMetadata (upsertConversationMetadata cfg s u incoming now).1 u).bind
            ConversationMetadata.lastInteractionAt
      ∧ (getConversationMetadata (upsertConversationMetadata cfg
            (upsertConversationMetadata cfg s u incoming now).1 u incoming now').1 u).bind
          ConversationMetadata.sentiment
        = (getConversationMetadata (upsertConversationMetadata cfg s u incoming now).1 u).bind
            ConversationMetadata.sentiment
      ∧ (getConversationMetadata (upsertConversationMetadata cfg
            (upsertConversationMetadata cfg s u incoming now).1 u incoming now').1 u).bind
          ConversationMetadata.goal
        = (getConversationMetadata (upsertConversationMetadata cfg s u incoming now).1 u).bind
            ConversationMetadata.goal) := by
  have hread := upsert_readback cfg s u incoming now
  have hread' := upsert_readback cfg (upsertConversationMetadata cfg s u incoming now).1 u
    incoming now'
  have h2 : (upsertConversationMetadata cfg (upsertConversationMetadata cfg s u incoming now).1 u
      incoming now').2
      = mergeMetadata (some (mergeMetadata (getConversationMetadata s u) incoming)) incoming := by
    show mergeMetadata
        (getConversationMetadata (upsertConversationMetadata cfg s u incoming now).1 u) incoming = _
    rw [hread]
    rfl
  have hs := mergeMetadata_scalar_idem (getConversationMetadata s u) incoming
  have hret : (upsertConversationMetadata cfg (upsertConversationMetadata cfg s u incoming now).1 u
        incoming now').2.summary = (upsertConversationMetadata cfg s u incoming now).2.summary
      ∧ (upsertConversationMetadata cfg (upsertConversationMetadata cfg s u incoming now).1 u
          incoming now').2.totalTurns = (upsertConversationMetadata cfg s u incoming now).2.totalTurns
      ∧ (upsertConversationMetadata cfg (upsertConversationMetadata cfg s u incoming now).1 u
          incoming now').2.lastInteractionAt
            = (upsertConversationMetadata cfg s u incoming now).2.lastInteractionAt
      ∧ (upsertConversationMetadata cfg (upsertConversationMetadata cfg s u incoming now).1 u
          incoming now').2.sentiment = (upsertConversationMetadata cfg s u incoming now).2.sentiment
      ∧ (upsertConversationMetadata cfg (upsertConversationMetadata cfg s u incoming now).1 u
          incoming now').2.goal = (upsertConversationMetadata cfg s u incoming now).2.goal := by
    rw [h2]
    exact hs
  refine ⟨hret, ?_, ?_, ?_, ?_, ?_⟩ <;>
    rw [hread', hread] <;>
    simp only [Option.some_bind] <;>
    [exact hret.1; exact hret.2.1; exact hret.2.2.1; exact hret.2.2.2.1; exact hret.2.2.2.2]

/-- C4: clearHistory deletes exactly the three keys of the user (message list,
model value, metadata record): afterwards the window is empty, the model and
the metadata read as absent, and every other key keeps its value and TTL
bookkeeping. -/
theorem clearHistory_spec (s : Store) (u : String) :
    getConversationWindow (clearHistory s u) u none = []
    ∧ getModel (clearHistory s u) u = none
    ∧ getConversationMetadata (clearHistory s u) u = none
    ∧ (∀ k : String, k ≠ getMessagesKey u → k ≠ getModelKey u → k ≠ getMetadataKey u →
        kvGet (clearHistory s u) k = kvGet s k ∧ ttlGet (clearHistory s u) k = ttlGet s k) := by
  have hmsg : kvGet (clearHistory s u) (getMessagesKey u) = none := by
    unfold clearHistory
    rw [kvGet_del_other _ _ _ (messagesKey_ne_metadataKey u u),
      kvGet_del_other _ _ _ (messagesKey_ne_modelKey u u), kvGet_del_self]
  refine ⟨?_, ?_, ?_, ?_⟩
  · show lrange (getList (clearHistory s u) (getMessagesKey u)) 0 (-1) = []
    rw [show getList (clearHistory s u) (getMessagesKey u) = [] from by
      unfold getList
      rw [hmsg], lrange_all]
  · unfold getModel
    rw [show kvGet (clearHistory s u) (getModelKey u) = none from by
      unfold clearHistory
      rw [kvGet_del_other _ _ _ (modelKey_ne_metadataKey u u), kvGet_del_self]]
  · unfold getConversationMetadata
    rw [show kvGet (clearHistory s u) (getMetadataKey u) = none from by
      unfold clearHistory
      rw [kvGet_del_self]]
  · intro k h1 h2 h3
    unfold clearHistory
    constructor
    · rw [kvGet_del_other _ _ _ h3, kvGet_del_other _ _ _ h2, kvGet_del_other _ _ _ h1]
    · rw [ttlGet_del_other _ _ _ h3, ttlGet_del_other _ _ _ h2, ttlGet_del_other _ _ _ h1]

/-- Witness for C4 at a concrete store holding one unrelated key. -/
theorem clearHistory_spec_witness :
    getConversationWindow (clearHistory (kvSet Store.empty "other" (RVal.vstr "x")) "u1") "u1" none
        = []
    ∧ getModel (clearHistory (kvSet Store.empty "other" (RVal.vstr "x")) "u1") "u1" = none
    ∧ kvGet (clearHistory (kvSet Store.empty "other" (RVal.vstr "x")) "u1") "other"
        = kvGet (kvSet Store.empty "other" (RVal.vstr "x")) "other" := by
  have h := clearHistory_spec (kvSet Store.empty "other" (RVal.vstr "x")) "u1"
  exact ⟨h.1, h.2.1, (h.2.2.2 "other" (by decide) (by decide) (by decide)).1⟩

/-- C5: setModel followed by getModel returns the model name just written, and
getModel for a user whose model key is absent returns none rather than an
error. -/
theorem setModel_getModel_spec (cfg : CacheTTLConfig) (s : Store) (u modelName : String)
    (now : Int) :
    getModel (setModel cfg s u modelName now) u = some modelName
    ∧ (∀ (s' : Store) (u' : String), kvGet s' (getModelKey u') = none → getModel s' u' = none) := by
  constructor
  · unfold setModel getModel
    rw [kvGet_applyTTL, kvGet_set_self]
  · intro s' u' h
    unfold getModel
    rw [h]

/-- Witness for C5: set then get on a concrete store, and a read of a user that
was never written. -/
theorem setModel_getModel_spec_witness :
    getModel (setModel { conversationTTLSeconds := none, modelTTLSeconds := none } Store.empty
        "u1" "modelA" 0) "u1" = some "modelA"
    ∧ getModel Store.empty "unknown-user" = none := by
  have h := setModel_getModel_spec { conversationTTLSeconds := none, modelTTLSeconds := none }
    Store.empty "u1" "modelA" 0
  exact ⟨h.1, h.2 Store.empty "unknown-user" rfl⟩

/-- C6: addMessage appends exactly one normalized message to the tail of the
message list (the input with its timestamp defaulted to the current time when
absent and kept when present); with a configured positive conversation TTL the
TTL bookkeeping of the message-list key records this append; and any sequence
of addMessage calls is returned by the window read in exact append order. -/
theorem addMessage_spec (cfg : CacheTTLConfig) (s : Store) (u : String) (m : MessageInput)
    (now : Int) :
    getList (addMessage cfg s u m now) (getMessagesKey u)
      = getList s (getMessagesKey u) ++ [normalizeMessage m now]
    ∧ (normalizeMessage m now).role = m.role
    ∧ (normalizeMessage m now).content = m.content
    ∧ (normalizeMessage m now).metadata = m.metadata
    ∧ (normalizeMessage m now).timestamp = (match m.timestamp with
        | some t => t
        | none => now)
    ∧ (∀ t : Int, cfg.conversationTTLSeconds = some t → 0 < t →
        ttlGet (addMessage cfg s u m now) (getMessagesKey u) = some (t, now))
    ∧ (∀ ms : List (MessageInput × Int),
        getConversationWindow (addMessages cfg s u ms) u none
          = getList s (getMessagesKey u) ++ ms.map (fun p => normalizeMessage p.1 p.2)) := by
  refine ⟨getList_addMessage cfg s u m now, rfl, rfl, rfl, ?_, ?_, ?_⟩
  · show m.timestamp.getD now = (match m.timestamp with
      | some t => t
      | none => now)
    cases m.timestamp <;> rfl
  · intro t h ht
    exact ttlGet_addMessage cfg s u m now t h ht
  · intro ms
    show lrange (getList (addMessages cfg s u ms) (getMessagesKey u)) 0 (-1) = _
    rw [lrange_all, addMessages_getList]

/-- Witness for C6 at a concrete input: one message without timestamp appended
to the empty store under a 60 second conversation TTL at time 5. -/
theorem addMessage_spec_witness :
    getList (addMessage { conversationTTLSeconds := some 60, modelTTLSeconds := none } Store.empty
        "u1" { role := Role.user, content := "hi", timestamp := none, metadata := none } 5)
        (getMessagesKey "u1")
      = [{ role := Role.user, content := "hi", timestamp := 5, metadata := none }]
    ∧ ttlGet (addMessage { conversationTTLSeconds := some 60, modelTTLSeconds := none } Store.empty
        "u1" { role := Role.user, content := "hi", timestamp := none, metadata := none } 5)
        (getMessagesKey "u1")
      = some (60, 5) := by
  have h := addMessage_spec { conversationTTLSeconds := some 60, modelTTLSeconds := none }
    Store.empty "u1" { role := Role.user, content := "hi", timestamp := none, metadata := none } 5
  refine ⟨?_, h.2.2.2.2.2.1 60 rfl (by norm_num)⟩
  rw [h.1]
  rfl

/-- C7: on first initialization (no instance exists), getInstance raises the
configuration error exactly when no baseURL endpoint is supplied (no config at
all, or a falsy empty baseURL string), and in the error case no instance is
created: the singleton field stays empty. -/
theorem getInstance_first_init_spec (arg : GetInstanceArg) :
    ((∃ e, (getInstance none arg).2 = Except.error e) ↔
      ∀ cfg : LLMCacheConfig, resolveConfig arg = some cfg → cfg.baseURL = "")
    ∧ (∀ e, (getInstance none arg).2 = Except.error e → (getInstance none arg).1 = none) := by
  cases hc : resolveConfig arg with
  | none => simp [getInstance, hc]
  | some cfg =>
    by_cases hb : cfg.baseURL = ""
    · simp [getInstance, hc, hb]
    · simp [getInstance, hc, hb]

/-- Witness for C7: calling getInstance with no argument at all errors and
leaves the singleton state empty; calling it with a baseURL succeeds. -/
theorem getInstance_first_init_spec_witness :
    (getInstance none (GetInstanceArg.byConfig none)).1 = none
    ∧ ∃ e, (getInstance none (GetInstanceArg.byConfig none)).2 = Except.error e := by
  have h := getInstance_first_init_spec (GetInstanceArg.byConfig none)
  refine ⟨h.2 "A baseURL e necessaria na primeira inicializacao do LLMCache." rfl, ?_⟩
  exact h.1.mpr (by intro cfg hcfg; cases hcfg)

/-- C8: key derivation is a pure function of the user identifier and record
kind, and it is injective across all (userId, kind) pairs, including user
identifiers containing the colon separator; in particular the three keys of
one user are pairwise distinct and no key of user A equals any key of user
B when A and B differ. -/
theorem deriveKey_injective (u1 u2 : String) (k1 k2 : RecordKind) :
    deriveKey u1 k1 = deriveKey u2 k2 ↔ (u1 = u2 ∧ k1 = k2) := by
  constructor
  · exact deriveKey_inj_aux u1 u2 k1 k2
  · rintro ⟨rfl, rfl⟩
    rfl

/-- C9: the record stored and returned by upsertConversationMetadata always
carries userPreferences, toolState and extra as defined maps; when neither the
current state nor the update supplies one of them, the stored map is the empty
map, even though the data model declares these fields optional. -/
theorem upsert_defines_maps (cfg : CacheTTLConfig) (s : Store) (u : String)
    (incoming : ConversationMetadata) (now : Int) :
    ((upsertConversationMetadata cfg s u incoming now).2.userPreferences).isSome = true
    ∧ ((upsertConversationMetadata cfg s u incoming now).2.toolState).isSome = true
    ∧ ((upsertConversationMetadata cfg s u incoming now).2.extra).isSome = true
    ∧ getConversationMetadata (upsertConversationMetadata cfg s u incoming now).1 u
        = some (upsertConversationMetadata cfg s u incoming now).2
    ∧ ((getConversationMetadata s u).bind ConversationMetadata.userPreferences = none →
        incoming.userPreferences = none →
        (upsertConversationMetadata cfg s u incoming now).2.userPreferences = some [])
    ∧ ((getConversationMetadata s u).bind ConversationMetadata.toolState = none →
        incoming.toolState = none →
        (upsertConversationMetadata cfg s u incoming now).2.toolState = some [])
    ∧ ((getConversationMetadata s u).bind ConversationMetadata.extra = none →
        incoming.extra = none →
        (upsertConversationMetadata cfg s u incoming now).2.extra = some []) := by
  refine ⟨rfl, rfl, rfl, upsert_readback cfg s u incoming now, ?_, ?_, ?_⟩
  · intro h1 h2
    show some (mergeRecord (((getConversationMetadata s u).bind
        ConversationMetadata.userPreferences).getD []) ((incoming.userPreferences).getD []))
      = some []
    rw [h1, h2]
    rfl
  · intro h1 h2
    show some (mergeRecord (((getConversationMetadata s u).bind
        ConversationMetadata.toolState).getD []) ((incoming.toolState).getD []))
      = some []
    rw [h1, h2]
    rfl
  · intro h1 h2
    show some (mergeRecord (((getConversationMetadata s u).bind
        ConversationMetadata.extra).getD []) ((incoming.extra).getD []))
      = some []
    rw [h1, h2]
    rfl

/-- Witness for C9: an upsert of the empty partial update on the empty store
yields empty defined maps. -/
theorem upsert_defines_maps_witness :
    (upsertConversationMetadata { conversationTTLSeconds := none, modelTTLSeconds := none }
        Store.empty "u1" {} 0).2.userPreferences = some []
    ∧ (upsertConversationMetadata { conversationTTLSeconds := none, modelTTLSeconds := none }
        Store.empty "u1" {} 0).2.toolState = some []
    ∧ (upsertConversationMetadata { conversationTTLSeconds := none, modelTTLSeconds := none }
        Store.empty "u1" {} 0).2.extra = some [] := by
  have h := upsert_defines_maps { conversationTTLSeconds := none, modelTTLSeconds := none }
    Store.empty "u1" {} 0
  exact ⟨h.2.2.2.2.1 rfl rfl, h.2.2.2.2.2.1 rfl rfl, h.2.2.2.2.2.2 rfl rfl⟩

/-- C10: once an instance exists, every getInstance call returns that same
instance unchanged, raises no error, and ignores all of its arguments,
including a call with no baseURL at all: the configuration is frozen at first
successful initialization. -/
theorem getInstance_after_init_spec (inst : CacheInstance) (arg : GetInstanceArg) :
    getInstance (some inst) arg = (some inst, Except.ok inst) := rfl

end LLMCache
